import Mathlib

/-!
Shallow embedding of the flight-dynamics core of `src/main.js`: the per-tick
`update` step, its `resetAirplane` helper, and the vector/quaternion
operations from three.js that the step uses.  JavaScript numbers are
modelled as real numbers.
-/

noncomputable section

open Classical

/-- 3D vector (three.js `Vector3`), components as real numbers. -/
@[ext]
structure Vec3 where
  x : ℝ
  y : ℝ
  z : ℝ

namespace Vec3

/-- `Vector3.length()`. -/
def length (v : Vec3) : ℝ := Real.sqrt (v.x ^ 2 + v.y ^ 2 + v.z ^ 2)

/-- `Vector3.addScaledVector(w, c)`. -/
def addScaled (v w : Vec3) (c : ℝ) : Vec3 :=
  ⟨v.x + w.x * c, v.y + w.y * c, v.z + w.z * c⟩

/-- Multiplication by a scalar (`Vector3.multiplyScalar`). -/
def scale (c : ℝ) (v : Vec3) : Vec3 := ⟨c * v.x, c * v.y, c * v.z⟩

/-- `Vector3.setLength(l)`: normalize, then multiply by `l`. -/
def setLength (v : Vec3) (l : ℝ) : Vec3 := scale (l / v.length) v

end Vec3

/-- Quaternion (three.js `Quaternion`). -/
@[ext]
structure Quat where
  x : ℝ
  y : ℝ
  z : ℝ
  w : ℝ

/-- `Quaternion.setFromAxisAngle(axis, angle)` (axis assumed normalized). -/
def axisAngleQuat (axis : Vec3) (angle : ℝ) : Quat :=
  ⟨axis.x * Real.sin (angle / 2), axis.y * Real.sin (angle / 2),
   axis.z * Real.sin (angle / 2), Real.cos (angle / 2)⟩

/-- `Quaternion.multiplyQuaternions(a, b)` (Hamilton product). -/
def qmul (a b : Quat) : Quat :=
  ⟨a.x * b.w + a.w * b.x + a.y * b.z - a.z * b.y,
   a.y * b.w + a.w * b.y + a.z * b.x - a.x * b.z,
   a.z * b.w + a.w * b.z + a.x * b.y - a.y * b.x,
   a.w * b.w - a.x * b.x - a.y * b.y - a.z * b.z⟩

/-- `Vector3.applyQuaternion(q)`: computes `q * (0,v) * conj q`. -/
def applyQuat (v : Vec3) (q : Quat) : Vec3 :=
  let ix := q.w * v.x + q.y * v.z - q.z * v.y
  let iy := q.w * v.y + q.z * v.x - q.x * v.z
  let iz := q.w * v.z + q.x * v.y - q.y * v.x
  let iw := -q.x * v.x - q.y * v.y - q.z * v.z
  ⟨ix * q.w + iw * (-q.x) + iy * (-q.z) - iz * (-q.y),
   iy * q.w + iw * (-q.y) + iz * (-q.x) - ix * (-q.z),
   iz * q.w + iw * (-q.z) + ix * (-q.y) - iy * (-q.x)⟩

/-- The boolean control intents sampled from the keyboard for one tick. -/
structure Keys where
  keyW : Bool
  keyS : Bool
  keyA : Bool
  keyD : Bool
  keyQ : Bool
  keyE : Bool
  arrowUp : Bool
  arrowDown : Bool
  space : Bool

/-- No key held. -/
def noKeys : Keys := ⟨false, false, false, false, false, false, false, false, false⟩

/-- Holding only the Space (reset) key. -/
def spaceKey : Keys := ⟨false, false, false, false, false, false, false, false, true⟩

/-- The mutable aircraft state (`const state = {...}` in main.js). -/
@[ext]
structure FlightState where
  position : Vec3
  velocity : Vec3
  pitch : ℝ
  roll : ℝ
  yaw : ℝ
  throttle : ℝ
  speed : ℝ
  gForce : ℝ
  onGround : Bool

def GRAVITY : ℝ := 9.81
def MAX_SPEED : ℝ := 110
def STALL_SPEED : ℝ := 20
def LIFT_FACTOR : ℝ := 0.0038
def DRAG_FACTOR : ℝ := 0.0018
def THRUST_ACCEL : ℝ := 22
def PITCH_RATE : ℝ := 1.2
def ROLL_RATE : ℝ := 1.6
def YAW_RATE : ℝ := 0.5
def MAX_PITCH : ℝ := Real.pi / 2.5
def MAX_ROLL : ℝ := Real.pi * 0.8
def ROLL_DAMPING : ℝ := 0.97
def PITCH_DAMPING : ℝ := 0.97
def GROUND_FRICTION : ℝ := 0.998
def GROUND_ANGLE_DAMPING : ℝ := 0.9

/-- `const groundY = 1.1` (gear height) in `update`. -/
def groundY : ℝ := 1.1

/-- The initial aircraft state literal in main.js. -/
def initState : FlightState :=
  ⟨⟨0, 2, 0⟩, ⟨0, 0, 0⟩, 0, 0, 0, 0.3, 0, 1.0, true⟩

/-- `resetAirplane()` in main.js. -/
def resetAirplane (s : FlightState) : FlightState :=
  { s with position := ⟨0, 2, 0⟩, velocity := ⟨0, 0, 0⟩, pitch := 0, roll := 0,
           yaw := 0, throttle := 0.3, speed := 0, onGround := true }

/-- Pitch after the W/S key rates (lines 531-532). -/
def keyPitch (s : FlightState) (k : Keys) (dt : ℝ) : ℝ :=
  let p1 := if k.keyW then s.pitch - PITCH_RATE * dt else s.pitch
  if k.keyS then p1 + PITCH_RATE * dt else p1

/-- Roll after the A/D key rates (lines 533-534). -/
def keyRoll (s : FlightState) (k : Keys) (dt : ℝ) : ℝ :=
  let r1 := if k.keyA then s.roll - ROLL_RATE * dt else s.roll
  if k.keyD then r1 + ROLL_RATE * dt else r1

/-- Yaw after the Q/E key rates (lines 535-536). -/
def keyYaw (s : FlightState) (k : Keys) (dt : ℝ) : ℝ :=
  let y1 := if k.keyQ then s.yaw + YAW_RATE * dt else s.yaw
  if k.keyE then y1 - YAW_RATE * dt else y1

/-- Throttle after the arrow key rates (lines 538-539). -/
def keyThrottle (s : FlightState) (k : Keys) (dt : ℝ) : ℝ :=
  let t1 := if k.arrowUp then min 1 (s.throttle + dt * 0.6) else s.throttle
  if k.arrowDown then max 0 (t1 - dt * 0.6) else t1

/-- The state after the key rates and the reset intent (lines 531-541). -/
def afterResetState (s : FlightState) (k : Keys) (dt : ℝ) : FlightState :=
  let sK := { s with pitch := keyPitch s k dt, roll := keyRoll s k dt,
                     yaw := keyYaw s k dt, throttle := keyThrottle s k dt }
  if k.space then resetAirplane sK else sK

/-- Pitch clamped to its bounds (line 544). -/
def clampedPitch (s : FlightState) (k : Keys) (dt : ℝ) : ℝ :=
  max (-MAX_PITCH) (min MAX_PITCH (afterResetState s k dt).pitch)

/-- Roll clamped to its bounds (line 545). -/
def clampedRoll (s : FlightState) (k : Keys) (dt : ℝ) : ℝ :=
  max (-MAX_ROLL) (min MAX_ROLL (afterResetState s k dt).roll)

/-- The controls section of `update` (lines 531-558): key rates and reset
(`afterResetState`), then the angle clamps, the bank-induced yaw coupling
(which reads the clamped, pre-damping roll), and the auto-level damping. -/
def controlPhase (s : FlightState) (k : Keys) (dt : ℝ) : FlightState :=
  { afterResetState s k dt with
    pitch := if k.keyW = false ∧ k.keyS = false
             then clampedPitch s k dt * PITCH_DAMPING ^ (dt * 60)
             else clampedPitch s k dt,
    roll := if k.keyA = false ∧ k.keyD = false
            then clampedRoll s k dt * ROLL_DAMPING ^ (dt * 60)
            else clampedRoll s k dt,
    yaw := (afterResetState s k dt).yaw + clampedRoll s k dt * 0.35 * dt }

/-- The orientation quaternion `qTotal = (qYaw * qPitch) * qRoll` (lines 563-566). -/
def orientQuat (s : FlightState) : Quat :=
  qmul (qmul (axisAngleQuat ⟨0, 1, 0⟩ s.yaw) (axisAngleQuat ⟨0, 0, 1⟩ s.pitch))
       (axisAngleQuat ⟨1, 0, 0⟩ s.roll)

/-- World-space forward direction (line 569). -/
def forwardVec (s : FlightState) : Vec3 := applyQuat ⟨1, 0, 0⟩ (orientQuat s)

/-- World-space up direction (line 570). -/
def upVec (s : FlightState) : Vec3 := applyQuat ⟨0, 1, 0⟩ (orientQuat s)

/-- The stall predicate (line 576): evaluated on the post-controls state,
whose `onGround` is the value left by the previous tick unless a reset
this tick rewrote it. -/
def stalledAt (s : FlightState) : Prop :=
  s.velocity.length < STALL_SPEED ∧ s.onGround = false

/-- `liftAcc` (line 585): zero when stalled, else `speed^2 * LIFT_FACTOR`. -/
def liftAccOf (s : FlightState) : ℝ :=
  if stalledAt s then 0 else s.velocity.length ^ 2 * LIFT_FACTOR

/-- Thrust plus lift contributions to the acceleration (lines 582-586). -/
def thrustLiftAcc (s : FlightState) : Vec3 :=
  ((Vec3.mk 0 0 0).addScaled (forwardVec s) (s.throttle * THRUST_ACCEL)).addScaled
    (upVec s) (liftAccOf s)

/-- The full acceleration (lines 579-595): thrust, lift, guarded drag, gravity. -/
def accelOf (s : FlightState) : Vec3 :=
  let speed := s.velocity.length
  let a := if speed > 0.01
           then (thrustLiftAcc s).addScaled s.velocity (-(speed ^ 2 * DRAG_FACTOR) / speed)
           else thrustLiftAcc s
  { a with y := a.y - GRAVITY }

/-- Velocity after Euler integration (line 598), before the speed cap. -/
def preCapVel (s : FlightState) (dt : ℝ) : Vec3 := s.velocity.addScaled (accelOf s) dt

/-- Velocity after the speed cap (lines 601-603). -/
def postCapVel (s : FlightState) (dt : ℝ) : Vec3 :=
  if (preCapVel s dt).length > MAX_SPEED
  then (preCapVel s dt).setLength MAX_SPEED
  else preCapVel s dt

/-- Velocity after the ground contact effects (lines 609-612): a negative
vertical component is zeroed and rolling friction scales x and z. -/
def groundedVel (v2 : Vec3) (dt : ℝ) : Vec3 :=
  let vg := if v2.y < 0 then { v2 with y := 0 } else v2
  ⟨vg.x * GROUND_FRICTION ^ (dt * 60), vg.y, vg.z * GROUND_FRICTION ^ (dt * 60)⟩

/-- The ground constraint (lines 606-618), applied to the post-controls state
`s` and the capped velocity `v2`. -/
def groundPhase (s : FlightState) (v2 : Vec3) (dt : ℝ) : FlightState :=
  if s.position.y ≤ groundY then
    { s with position := { s.position with y := groundY },
             velocity := groundedVel v2 dt,
             onGround := true,
             pitch := s.pitch * GROUND_ANGLE_DAMPING ^ (dt * 60),
             roll := s.roll * GROUND_ANGLE_DAMPING ^ (dt * 60) }
  else { s with velocity := v2, onGround := false }

/-- One tick of `update()` (lines 526-678, the simulation part): clamp `dt`,
run the controls, integrate the velocity, cap the speed, apply the ground
constraint, integrate the position, and store the derived `speed` and
`gForce`. -/
def update (s : FlightState) (k : Keys) (dtRaw : ℝ) : FlightState :=
  let dt := min dtRaw 0.05
  let s1 := controlPhase s k dt
  let s2 := groundPhase s1 (postCapVel s1 dt) dt
  let s3 := { s2 with position := s2.position.addScaled s2.velocity dt }
  { s3 with speed := s1.velocity.length, gForce := |liftAccOf s1 / GRAVITY| + 1 }

/-- The stall flag computed during a tick (drives the stall warning and lift). -/
def stallFlag (s : FlightState) (k : Keys) (dtRaw : ℝ) : Prop :=
  stalledAt (controlPhase s k (min dtRaw 0.05))

/-- States reachable from the initial state by ticks with `dt ∈ [0, 0.05]`. -/
inductive Reachable : FlightState → Prop
  | init : Reachable initState
  | step (s : FlightState) (k : Keys) (dtRaw : ℝ) :
      Reachable s → 0 ≤ dtRaw → dtRaw ≤ 0.05 → Reachable (update s k dtRaw)

/-- A run of ticks from the initial state with per-tick keys and dt. -/
def trace (ks : ℕ → Keys) (dts : ℕ → ℝ) : ℕ → FlightState
  | 0 => initState
  | n + 1 => update (trace ks dts n) (ks n) (dts n)

/-- A run of ticks from an arbitrary state with per-tick keys, fixed dt. -/
def iterFrom (s : FlightState) (ks : ℕ → Keys) (dt : ℝ) : ℕ → FlightState
  | 0 => s
  | n + 1 => update (iterFrom s ks dt n) (ks n) dt

/-- Airborne start state for the auto-level experiment: wings banked 0.5 rad,
level pitch, engine idle, high altitude. -/
def c6start : FlightState := ⟨⟨0, 100, 0⟩, ⟨0, 0, 0⟩, 0, 0.5, 0, 0, 0, 1, false⟩

/-- The auto-level experiment: run ticks from `c6start` with no key held at
a fixed `dt = 1/60`. -/
def c6run : ℕ → FlightState := iterFrom c6start (fun _ => noKeys) (1 / 60)

/-- Airborne, level state moving at 10 m/s along x with the engine off. -/
def cruise10 : FlightState := ⟨⟨0, 100, 0⟩, ⟨10, 0, 0⟩, 0, 0, 0, 0, 10, 1, false⟩

/-- Airborne, level state moving at 200 m/s along x (above the speed cap). -/
def fast200 : FlightState := ⟨⟨0, 100, 0⟩, ⟨200, 0, 0⟩, 0, 0, 0, 0, 200, 1, false⟩

/-- State resting exactly at ground clearance and sinking at 1 m/s. -/
def sinkAtGround : FlightState := ⟨⟨0, 1.1, 0⟩, ⟨0, -1, 0⟩, 0, 0, 0, 0, 1, 1, true⟩

/-- The initial state with the previous tick's `onGround` cleared. -/
def airborneInit : FlightState := { initState with onGround := false }

/-! ### General-purpose lemmas -/

lemma sqrt_le_of_le_sq {x c : ℝ} (hc : 0 ≤ c) (h : x ≤ c ^ 2) : Real.sqrt x ≤ c := by
  calc Real.sqrt x ≤ Real.sqrt (c ^ 2) := Real.sqrt_le_sqrt h
    _ = c := Real.sqrt_sq hc

lemma sqrt_lt_of_lt_sq {x c : ℝ} (hc : 0 < c) (h : x < c ^ 2) : Real.sqrt x < c :=
  (Real.sqrt_lt' hc).mpr h

lemma Vec3.length_mk (a b c : ℝ) :
    Vec3.length ⟨a, b, c⟩ = Real.sqrt (a ^ 2 + b ^ 2 + c ^ 2) := rfl

lemma Vec3.length_nonneg (v : Vec3) : 0 ≤ v.length := Real.sqrt_nonneg _

lemma Vec3.length_zero : Vec3.length ⟨0, 0, 0⟩ = 0 := by
  simp [Vec3.length_mk]

lemma Vec3.length_xAxis (a : ℝ) (h : 0 ≤ a) : Vec3.length ⟨a, 0, 0⟩ = a := by
  rw [Vec3.length_mk]
  simpa using Real.sqrt_sq h

lemma Vec3.length_yAxis (b : ℝ) : Vec3.length ⟨0, b, 0⟩ = |b| := by
  rw [Vec3.length_mk]
  simpa using Real.sqrt_sq_eq_abs b

lemma Vec3.length_scale (c : ℝ) (v : Vec3) : (Vec3.scale c v).length = |c| * v.length := by
  rw [Vec3.scale, Vec3.length_mk, Vec3.length, show
      (c * v.x) ^ 2 + (c * v.y) ^ 2 + (c * v.z) ^ 2
        = c ^ 2 * (v.x ^ 2 + v.y ^ 2 + v.z ^ 2) by ring,
    Real.sqrt_mul (sq_nonneg c), Real.sqrt_sq_eq_abs]

lemma MAX_PITCH_pos : 0 < MAX_PITCH := by
  rw [MAX_PITCH]; positivity

lemma MAX_ROLL_pos : 0 < MAX_ROLL := by
  rw [MAX_ROLL]; positivity

lemma MAX_ROLL_ge : (2.4 : ℝ) ≤ MAX_ROLL := by
  rw [MAX_ROLL]
  nlinarith [Real.pi_gt_three]

lemma clamp_zero {M : ℝ} (h : 0 ≤ M) : max (-M) (min M 0) = 0 := by
  rw [min_eq_right h, max_eq_right (neg_nonpos.mpr h)]

lemma clamp_eq_self {M x : ℝ} (h1 : -M ≤ x) (h2 : x ≤ M) : max (-M) (min M x) = x := by
  rw [min_eq_right h2, max_eq_right h1]

lemma abs_clamp_le {M x : ℝ} (h : 0 ≤ M) : |max (-M) (min M x)| ≤ M := by
  rw [abs_le]
  constructor
  · exact le_max_left _ _
  · exact max_le (by linarith) (min_le_left _ _)

lemma damp_factor_mem {b e : ℝ} (hb0 : 0 < b) (hb1 : b ≤ 1) (he : 0 ≤ e) :
    0 < b ^ e ∧ b ^ e ≤ 1 :=
  ⟨Real.rpow_pos_of_pos hb0 e, Real.rpow_le_one hb0.le hb1 he⟩

/-! ### Phase-level lemmas about `controlPhase` -/

lemma afterResetState_velocity (s : FlightState) (k : Keys) (dt : ℝ) :
    (afterResetState s k dt).velocity = if k.space then Vec3.mk 0 0 0 else s.velocity := by
  cases hs : k.space <;> simp [afterResetState, resetAirplane, hs]

lemma afterResetState_position (s : FlightState) (k : Keys) (dt : ℝ) :
    (afterResetState s k dt).position = if k.space then Vec3.mk 0 2 0 else s.position := by
  cases hs : k.space <;> simp [afterResetState, resetAirplane, hs]

lemma afterResetState_onGround (s : FlightState) (k : Keys) (dt : ℝ) :
    (afterResetState s k dt).onGround = if k.space then true else s.onGround := by
  cases hs : k.space <;> simp [afterResetState, resetAirplane, hs]

lemma afterResetState_gForce (s : FlightState) (k : Keys) (dt : ℝ) :
    (afterResetState s k dt).gForce = s.gForce := by
  cases hs : k.space <;> simp [afterResetState, resetAirplane, hs]

lemma controlPhase_velocity (s : FlightState) (k : Keys) (dt : ℝ) :
    (controlPhase s k dt).velocity = if k.space then Vec3.mk 0 0 0 else s.velocity :=
  afterResetState_velocity s k dt

lemma controlPhase_position (s : FlightState) (k : Keys) (dt : ℝ) :
    (controlPhase s k dt).position = if k.space then Vec3.mk 0 2 0 else s.position :=
  afterResetState_position s k dt

lemma controlPhase_onGround (s : FlightState) (k : Keys) (dt : ℝ) :
    (controlPhase s k dt).onGround = if k.space then true else s.onGround :=
  afterResetState_onGround s k dt

lemma controlPhase_gForce (s : FlightState) (k : Keys) (dt : ℝ) :
    (controlPhase s k dt).gForce = s.gForce :=
  afterResetState_gForce s k dt

lemma controlPhase_throttle (s : FlightState) (k : Keys) (dt : ℝ) :
    (controlPhase s k dt).throttle
      = if k.space then (0.3 : ℝ) else keyThrottle s k dt := by
  show (afterResetState s k dt).throttle = _
  cases hs : k.space <;> simp [afterResetState, resetAirplane, hs]

/-- With no key held, the controls only clamp and damp pitch and roll and
apply the bank-induced yaw coupling. -/
lemma controlPhase_noKeys_eq (s : FlightState) (dt : ℝ) :
    controlPhase s noKeys dt =
      { s with
        pitch := max (-MAX_PITCH) (min MAX_PITCH s.pitch) * PITCH_DAMPING ^ (dt * 60),
        roll := max (-MAX_ROLL) (min MAX_ROLL s.roll) * ROLL_DAMPING ^ (dt * 60),
        yaw := s.yaw + max (-MAX_ROLL) (min MAX_ROLL s.roll) * 0.35 * dt } := by
  have hars : afterResetState s noKeys dt = s := by
    simp [afterResetState, keyPitch, keyRoll, keyYaw, keyThrottle, noKeys]
  simp only [controlPhase, clampedPitch, clampedRoll, hars]
  norm_num [noKeys]

/-- With no key held and level wings, the controls leave the state unchanged. -/
lemma controlPhase_noKeys (s : FlightState) (dt : ℝ) (hp : s.pitch = 0) (hr : s.roll = 0) :
    controlPhase s noKeys dt = s := by
  rw [controlPhase_noKeys_eq, hp, hr, clamp_zero MAX_PITCH_pos.le, clamp_zero MAX_ROLL_pos.le]
  ext <;> simp [hp, hr]

/-! ### Orientation at zero angles -/

lemma axisAngleQuat_zero (a : Vec3) : axisAngleQuat a 0 = ⟨0, 0, 0, 1⟩ := by
  simp [axisAngleQuat]

lemma qmul_one_one : qmul (qmul ⟨0, 0, 0, 1⟩ ⟨0, 0, 0, 1⟩) ⟨0, 0, 0, 1⟩ = ⟨0, 0, 0, 1⟩ := by
  simp [qmul]

lemma applyQuat_one (v : Vec3) : applyQuat v ⟨0, 0, 0, 1⟩ = v := by
  simp [applyQuat]

lemma orientQuat_zero (s : FlightState) (hp : s.pitch = 0) (hr : s.roll = 0)
    (hy : s.yaw = 0) : orientQuat s = ⟨0, 0, 0, 1⟩ := by
  rw [orientQuat, hp, hr, hy, axisAngleQuat_zero, axisAngleQuat_zero, axisAngleQuat_zero,
    qmul_one_one]

lemma forwardVec_zero (s : FlightState) (hp : s.pitch = 0) (hr : s.roll = 0)
    (hy : s.yaw = 0) : forwardVec s = ⟨1, 0, 0⟩ := by
  rw [forwardVec, orientQuat_zero s hp hr hy, applyQuat_one]

lemma upVec_zero (s : FlightState) (hp : s.pitch = 0) (hr : s.roll = 0)
    (hy : s.yaw = 0) : upVec s = ⟨0, 1, 0⟩ := by
  rw [upVec, orientQuat_zero s hp hr hy, applyQuat_one]

/-! ### Projections of `update` -/

lemma update_gForce (s : FlightState) (k : Keys) (dtRaw : ℝ) :
    (update s k dtRaw).gForce
      = |liftAccOf (controlPhase s k (min dtRaw 0.05)) / GRAVITY| + 1 := rfl

lemma update_speed (s : FlightState) (k : Keys) (dtRaw : ℝ) :
    (update s k dtRaw).speed = (controlPhase s k (min dtRaw 0.05)).velocity.length := rfl

lemma update_velocity (s : FlightState) (k : Keys) (dtRaw : ℝ) :
    (update s k dtRaw).velocity
      = (groundPhase (controlPhase s k (min dtRaw 0.05))
          (postCapVel (controlPhase s k (min dtRaw 0.05)) (min dtRaw 0.05))
          (min dtRaw 0.05)).velocity := rfl

lemma update_position (s : FlightState) (k : Keys) (dtRaw : ℝ) :
    (update s k dtRaw).position
      = (groundPhase (controlPhase s k (min dtRaw 0.05))
          (postCapVel (controlPhase s k (min dtRaw 0.05)) (min dtRaw 0.05))
          (min dtRaw 0.05)).position.addScaled
        (groundPhase (controlPhase s k (min dtRaw 0.05))
          (postCapVel (controlPhase s k (min dtRaw 0.05)) (min dtRaw 0.05))
          (min dtRaw 0.05)).velocity (min dtRaw 0.05) := rfl

lemma update_pitch (s : FlightState) (k : Keys) (dtRaw : ℝ) :
    (update s k dtRaw).pitch
      = (groundPhase (controlPhase s k (min dtRaw 0.05))
          (postCapVel (controlPhase s k (min dtRaw 0.05)) (min dtRaw 0.05))
          (min dtRaw 0.05)).pitch := rfl

lemma update_roll (s : FlightState) (k : Keys) (dtRaw : ℝ) :
    (update s k dtRaw).roll
      = (groundPhase (controlPhase s k (min dtRaw 0.05))
          (postCapVel (controlPhase s k (min dtRaw 0.05)) (min dtRaw 0.05))
          (min dtRaw 0.05)).roll := rfl

/-- The stall flag of a reset-free tick is the claim's predicate over the
previous tick's state. -/
lemma stallFlag_of_noReset (s : FlightState) (k : Keys) (dtRaw : ℝ) (hs : k.space = false) :
    stallFlag s k dtRaw ↔ (s.velocity.length < STALL_SPEED ∧ s.onGround = false) := by
  rw [stallFlag, stalledAt, controlPhase_velocity, controlPhase_onGround, hs]
  simp

lemma stallFlag_c6start : stallFlag c6start noKeys 0 := by
  rw [stallFlag_of_noReset c6start noKeys 0 rfl]
  refine ⟨?_, rfl⟩
  have : c6start.velocity = ⟨0, 0, 0⟩ := rfl
  rw [this, Vec3.length_zero, STALL_SPEED]
  norm_num

/-! ### The speed cap -/

lemma setLength_exact {v : Vec3} (h : 0 < v.length) {L : ℝ} (hL : 0 ≤ L) :
    (v.setLength L).length = L := by
  rw [Vec3.setLength, Vec3.length_scale, abs_of_nonneg (by positivity),
    div_mul_cancel₀ _ (ne_of_gt h)]

lemma postCapVel_spec (s1 : FlightState) (dt : ℝ) :
    (postCapVel s1 dt).length ≤ MAX_SPEED ∧
    (MAX_SPEED < (preCapVel s1 dt).length →
      (postCapVel s1 dt).length = MAX_SPEED ∧
      ∃ c : ℝ, 0 < c ∧ postCapVel s1 dt = Vec3.scale c (preCapVel s1 dt)) := by
  by_cases h : (preCapVel s1 dt).length > MAX_SPEED
  · have hpos : 0 < (preCapVel s1 dt).length :=
      lt_trans (by rw [MAX_SPEED]; norm_num) h
    have hlen : (postCapVel s1 dt).length = MAX_SPEED := by
      rw [postCapVel, if_pos h]
      exact setLength_exact hpos (by rw [MAX_SPEED]; norm_num)
    refine ⟨hlen.le, fun _ => ⟨hlen, MAX_SPEED / (preCapVel s1 dt).length, ?_, ?_⟩⟩
    · have : (0 : ℝ) < MAX_SPEED := by rw [MAX_SPEED]; norm_num
      positivity
    · rw [postCapVel, if_pos h, Vec3.setLength]
  · rw [postCapVel, if_neg h]
    exact ⟨not_lt.mp h, fun hc => absurd hc h⟩

lemma groundedVel_le (v2 : Vec3) (dt : ℝ) (hdt : 0 ≤ dt) :
    (groundedVel v2 dt).length ≤ v2.length := by
  obtain ⟨hf0, hf1⟩ := damp_factor_mem (b := GROUND_FRICTION) (e := dt * 60)
    (by rw [GROUND_FRICTION]; norm_num) (by rw [GROUND_FRICTION]; norm_num)
    (by linarith)
  set f := GROUND_FRICTION ^ (dt * 60) with hfdef
  have hf2 : f ^ 2 ≤ 1 := by nlinarith
  have key : ∀ w : Vec3, w.y ^ 2 ≤ v2.y ^ 2 → w.x = v2.x → w.z = v2.z →
      Vec3.length ⟨w.x * f, w.y, w.z * f⟩ ≤ v2.length := by
    intro w hy hx hz
    rw [Vec3.length_mk, Vec3.length]
    apply Real.sqrt_le_sqrt
    rw [hx, hz]
    nlinarith [sq_nonneg v2.x, sq_nonneg v2.z]
  rw [groundedVel]
  by_cases hv : v2.y < 0
  · rw [if_pos hv]
    exact key { v2 with y := 0 } (by simpa using sq_nonneg v2.y) rfl rfl
  · rw [if_neg hv]
    exact key v2 le_rfl rfl rfl

lemma groundPhase_vel_le (s1 : FlightState) (v2 : Vec3) (dt : ℝ) (hdt : 0 ≤ dt)
    (h : v2.length ≤ MAX_SPEED) : (groundPhase s1 v2 dt).velocity.length ≤ MAX_SPEED := by
  rw [groundPhase]
  by_cases hg : s1.position.y ≤ groundY
  · rw [if_pos hg]
    show (groundedVel v2 dt).length ≤ MAX_SPEED
    exact le_trans (groundedVel_le v2 dt hdt) h
  · rw [if_neg hg]
    exact h

/-! ### Angle bounds through one tick -/

lemma damp_abs_le {x M c : ℝ} (hx : |x| ≤ M) (hc0 : 0 < c) (hc1 : c ≤ 1) (hM : 0 ≤ M) :
    |x * c| ≤ M := by
  rw [abs_mul, abs_of_pos hc0]
  calc |x| * c ≤ M * 1 := mul_le_mul hx hc1 hc0.le hM
    _ = M := mul_one _

lemma controlPhase_pitch_eq (s : FlightState) (k : Keys) (dt : ℝ) :
    (controlPhase s k dt).pitch
      = if k.keyW = false ∧ k.keyS = false
        then clampedPitch s k dt * PITCH_DAMPING ^ (dt * 60)
        else clampedPitch s k dt := rfl

lemma controlPhase_roll_eq (s : FlightState) (k : Keys) (dt : ℝ) :
    (controlPhase s k dt).roll
      = if k.keyA = false ∧ k.keyD = false
        then clampedRoll s k dt * ROLL_DAMPING ^ (dt * 60)
        else clampedRoll s k dt := rfl

lemma controlPhase_pitch_bound (s : FlightState) (k : Keys) (dt : ℝ) (hdt : 0 ≤ dt) :
    |(controlPhase s k dt).pitch| ≤ MAX_PITCH := by
  obtain ⟨hc0, hc1⟩ := damp_factor_mem (b := PITCH_DAMPING) (e := dt * 60)
    (by rw [PITCH_DAMPING]; norm_num) (by rw [PITCH_DAMPING]; norm_num)
    (by linarith)
  have hcl : |clampedPitch s k dt| ≤ MAX_PITCH := abs_clamp_le MAX_PITCH_pos.le
  rw [controlPhase_pitch_eq]
  split_ifs with h
  · exact damp_abs_le hcl hc0 hc1 MAX_PITCH_pos.le
  · exact hcl

lemma controlPhase_roll_bound (s : FlightState) (k : Keys) (dt : ℝ) (hdt : 0 ≤ dt) :
    |(controlPhase s k dt).roll| ≤ MAX_ROLL := by
  obtain ⟨hc0, hc1⟩ := damp_factor_mem (b := ROLL_DAMPING) (e := dt * 60)
    (by rw [ROLL_DAMPING]; norm_num) (by rw [ROLL_DAMPING]; norm_num)
    (by linarith)
  have hcl : |clampedRoll s k dt| ≤ MAX_ROLL := abs_clamp_le MAX_ROLL_pos.le
  rw [controlPhase_roll_eq]
  split_ifs with h
  · exact damp_abs_le hcl hc0 hc1 MAX_ROLL_pos.le
  · exact hcl

lemma groundPhase_pitch_eq (s1 : FlightState) (v2 : Vec3) (dt : ℝ) :
    (groundPhase s1 v2 dt).pitch
      = if s1.position.y ≤ groundY
        then s1.pitch * GROUND_ANGLE_DAMPING ^ (dt * 60) else s1.pitch := by
  rw [groundPhase]
  split_ifs <;> rfl

lemma groundPhase_roll_eq (s1 : FlightState) (v2 : Vec3) (dt : ℝ) :
    (groundPhase s1 v2 dt).roll
      = if s1.position.y ≤ groundY
        then s1.roll * GROUND_ANGLE_DAMPING ^ (dt * 60) else s1.roll := by
  rw [groundPhase]
  split_ifs <;> rfl

lemma groundPhase_pitch_bound (s1 : FlightState) (v2 : Vec3) (dt : ℝ) (hdt : 0 ≤ dt)
    (h : |s1.pitch| ≤ MAX_PITCH) : |(groundPhase s1 v2 dt).pitch| ≤ MAX_PITCH := by
  obtain ⟨hc0, hc1⟩ := damp_factor_mem (b := GROUND_ANGLE_DAMPING) (e := dt * 60)
    (by rw [GROUND_ANGLE_DAMPING]; norm_num) (by rw [GROUND_ANGLE_DAMPING]; norm_num)
    (by linarith)
  rw [groundPhase_pitch_eq]
  split_ifs with hg
  · exact damp_abs_le h hc0 hc1 MAX_PITCH_pos.le
  · exact h

lemma groundPhase_roll_bound (s1 : FlightState) (v2 : Vec3) (dt : ℝ) (hdt : 0 ≤ dt)
    (h : |s1.roll| ≤ MAX_ROLL) : |(groundPhase s1 v2 dt).roll| ≤ MAX_ROLL := by
  obtain ⟨hc0, hc1⟩ := damp_factor_mem (b := GROUND_ANGLE_DAMPING) (e := dt * 60)
    (by rw [GROUND_ANGLE_DAMPING]; norm_num) (by rw [GROUND_ANGLE_DAMPING]; norm_num)
    (by linarith)
  rw [groundPhase_roll_eq]
  split_ifs with hg
  · exact damp_abs_le h hc0 hc1 MAX_ROLL_pos.le
  · exact h

lemma update_pitch_roll_bound (s : FlightState) (k : Keys) (dtRaw : ℝ) (h0 : 0 ≤ dtRaw) :
    |(update s k dtRaw).pitch| ≤ MAX_PITCH ∧ |(update s k dtRaw).roll| ≤ MAX_ROLL := by
  have hdt : 0 ≤ min dtRaw 0.05 := le_min h0 (by norm_num)
  rw [update_pitch, update_roll]
  exact ⟨groundPhase_pitch_bound _ _ _ hdt (controlPhase_pitch_bound s k _ hdt),
    groundPhase_roll_bound _ _ _ hdt (controlPhase_roll_bound s k _ hdt)⟩

/-! ### Evaluating one tick -/

lemma Vec3.addScaled_zero (v w : Vec3) : v.addScaled w 0 = v := by
  ext <;> simp [Vec3.addScaled]

lemma update_eq (s : FlightState) (k : Keys) (dtRaw : ℝ) :
    update s k dtRaw =
      { groundPhase (controlPhase s k (min dtRaw 0.05))
          (postCapVel (controlPhase s k (min dtRaw 0.05)) (min dtRaw 0.05))
          (min dtRaw 0.05) with
        position :=
          (groundPhase (controlPhase s k (min dtRaw 0.05))
            (postCapVel (controlPhase s k (min dtRaw 0.05)) (min dtRaw 0.05))
            (min dtRaw 0.05)).position.addScaled
          (groundPhase (controlPhase s k (min dtRaw 0.05))
            (postCapVel (controlPhase s k (min dtRaw 0.05)) (min dtRaw 0.05))
            (min dtRaw 0.05)).velocity (min dtRaw 0.05),
        speed := (controlPhase s k (min dtRaw 0.05)).velocity.length,
        gForce := |liftAccOf (controlPhase s k (min dtRaw 0.05)) / GRAVITY| + 1 } := rfl

/-- An airborne tick (ground test not firing, speed cap not firing), written
in terms of the post-controls state. -/
lemma update_phys_airborne (s : FlightState) (k : Keys) (d : ℝ) (s1 : FlightState)
    (h1 : controlPhase s k (min d 0.05) = s1)
    (hair : ¬ s1.position.y ≤ groundY)
    (hcap : ¬ (preCapVel s1 (min d 0.05)).length > MAX_SPEED) :
    update s k d =
      { s1 with
        position := s1.position.addScaled (preCapVel s1 (min d 0.05)) (min d 0.05),
        velocity := preCapVel s1 (min d 0.05),
        onGround := false,
        speed := s1.velocity.length,
        gForce := |liftAccOf s1 / GRAVITY| + 1 } := by
  rw [update_eq, h1, groundPhase, if_neg hair, postCapVel, if_neg hcap]

lemma liftAccOf_of_stalled (s : FlightState) (h : stalledAt s) : liftAccOf s = 0 :=
  if_pos h

lemma liftAccOf_of_vel_zero (s : FlightState) (h : s.velocity = ⟨0, 0, 0⟩) :
    liftAccOf s = 0 := by
  rw [liftAccOf]
  split_ifs with hst
  · rfl
  · rw [h, Vec3.length_zero]
    ring

lemma thrustLiftAcc_zero_angles (s : FlightState) (hp : s.pitch = 0) (hr : s.roll = 0)
    (hy : s.yaw = 0) (hlift : liftAccOf s = 0) :
    thrustLiftAcc s = ⟨s.throttle * THRUST_ACCEL, 0, 0⟩ := by
  rw [thrustLiftAcc, forwardVec_zero s hp hr hy, upVec_zero s hp hr hy, hlift]
  ext <;> simp [Vec3.addScaled]

lemma accelOf_eq_no_drag (s : FlightState) (h : s.velocity.length ≤ 0.01) :
    accelOf s = { thrustLiftAcc s with y := (thrustLiftAcc s).y - GRAVITY } := by
  rw [accelOf, if_neg (not_lt.mpr h)]

lemma accelOf_eq_drag (s : FlightState) (h : 0.01 < s.velocity.length) :
    accelOf s =
      { (thrustLiftAcc s).addScaled s.velocity (-(DRAG_FACTOR * s.velocity.length)) with
        y := ((thrustLiftAcc s).addScaled s.velocity
                (-(DRAG_FACTOR * s.velocity.length))).y - GRAVITY } := by
  have hne : s.velocity.length ≠ 0 := by
    intro h0
    rw [h0] at h
    norm_num at h
  have hc : -(s.velocity.length ^ 2 * DRAG_FACTOR) / s.velocity.length
      = -(DRAG_FACTOR * s.velocity.length) := by
    field_simp
    ring
  rw [accelOf, if_pos h, hc]

/-- After a reset this tick, the controls end on the spawn state (camera and
HUD fields aside, everything is the documented default; `gForce` survives). -/
lemma controlPhase_space_eq (s : FlightState) (k : Keys) (dt : ℝ) (hs : k.space = true) :
    controlPhase s k dt = ⟨⟨0, 2, 0⟩, ⟨0, 0, 0⟩, 0, 0, 0, 0.3, 0, s.gForce, true⟩ := by
  have h1 : afterResetState s k dt = ⟨⟨0, 2, 0⟩, ⟨0, 0, 0⟩, 0, 0, 0, 0.3, 0, s.gForce, true⟩ := by
    rw [afterResetState, if_pos hs]
    rfl
  have hcp : clampedPitch s k dt = 0 := by
    rw [clampedPitch, h1]
    exact clamp_zero MAX_PITCH_pos.le
  have hcr : clampedRoll s k dt = 0 := by
    rw [clampedRoll, h1]
    exact clamp_zero MAX_ROLL_pos.le
  simp only [controlPhase, h1, hcp, hcr]
  split_ifs <;> ext <;> simp

/-- A tick whose controls end on the spawn state `(0,2,0)`, zero velocity,
throttle 0.3: thrust and gravity integrate from rest, the ground test sees
`y = 2 > 1.1` and clears `onGround`. -/
lemma physFromSpawn (s : FlightState) (k : Keys) (d : ℝ) (gf : ℝ) (og : Bool)
    (h0 : 0 ≤ d) (h5 : d ≤ 0.05)
    (h1 : controlPhase s k (min d 0.05) = ⟨⟨0, 2, 0⟩, ⟨0, 0, 0⟩, 0, 0, 0, 0.3, 0, gf, og⟩) :
    update s k d =
      ⟨⟨6.6 * (d * d), 2 - 9.81 * (d * d), 0⟩, ⟨6.6 * d, -(9.81 * d), 0⟩,
        0, 0, 0, 0.3, 0, 1, false⟩ := by
  have hmin : min d 0.05 = d := min_eq_left h5
  rw [hmin] at h1
  set s1 : FlightState := ⟨⟨0, 2, 0⟩, ⟨0, 0, 0⟩, 0, 0, 0, 0.3, 0, gf, og⟩ with hs1
  have hlift : liftAccOf s1 = 0 := liftAccOf_of_vel_zero s1 rfl
  have hacc : accelOf s1 = ⟨6.6, -9.81, 0⟩ := by
    rw [accelOf_eq_no_drag s1 (by rw [show s1.velocity = ⟨0, 0, 0⟩ from rfl, Vec3.length_zero]; norm_num),
      thrustLiftAcc_zero_angles s1 rfl rfl rfl hlift]
    ext <;> simp [THRUST_ACCEL, GRAVITY] <;> norm_num
  have hpre : preCapVel s1 d = ⟨6.6 * d, -(9.81 * d), 0⟩ := by
    rw [preCapVel, hacc]
    ext <;> simp [Vec3.addScaled] <;> ring
  have hcap : ¬ (preCapVel s1 d).length > MAX_SPEED := by
    rw [hpre, not_lt, MAX_SPEED, Vec3.length_mk]
    apply sqrt_le_of_le_sq (by norm_num)
    nlinarith
  have := update_phys_airborne s k d s1 (by rw [hmin]; exact h1)
    (by rw [show s1.position = ⟨0, 2, 0⟩ from rfl]; norm_num [groundY]) (by rw [hmin]; exact hcap)
  rw [this, hmin, hpre]
  have hsp : s1.velocity.length = 0 := by
    rw [show s1.velocity = ⟨0, 0, 0⟩ from rfl, Vec3.length_zero]
  rw [hlift, hsp]
  ext <;> simp [Vec3.addScaled, GRAVITY] <;> ring

/-- Full evaluation of a reset tick: the reset rewrites the state mid-tick and
the rest of the tick then runs on the spawn state. -/
lemma resetTick_eval (s : FlightState) (k : Keys) (d : ℝ)
    (h0 : 0 ≤ d) (h5 : d ≤ 0.05) (hs : k.space = true) :
    update s k d =
      ⟨⟨6.6 * (d * d), 2 - 9.81 * (d * d), 0⟩, ⟨6.6 * d, -(9.81 * d), 0⟩,
        0, 0, 0, 0.3, 0, 1, false⟩ :=
  physFromSpawn s k d s.gForce true h0 h5 (controlPhase_space_eq s k _ hs)

/-- One tick from `cruise10` (engine off, level, 10 m/s along x, airborne):
stalled (no lift), drag 0.18 m/s² opposing motion, gravity. -/
lemma cruiseTick_eval (d : ℝ) (hlo : -1 ≤ d) (hhi : d ≤ 0.05) :
    update cruise10 noKeys d =
      ⟨⟨(10 + -0.18 * d) * d, 100 + -(9.81 * d) * d, 0⟩,
       ⟨10 + -0.18 * d, -(9.81 * d), 0⟩, 0, 0, 0, 0, 10, 1, false⟩ := by
  have hmin : min d 0.05 = d := min_eq_left hhi
  have h1 : controlPhase cruise10 noKeys (min d 0.05) = cruise10 :=
    controlPhase_noKeys cruise10 _ rfl rfl
  have hL : cruise10.velocity.length = 10 := by
    show Vec3.length ⟨10, 0, 0⟩ = 10
    exact Vec3.length_xAxis 10 (by norm_num)
  have hst : stalledAt cruise10 := by
    refine ⟨?_, rfl⟩
    rw [hL, STALL_SPEED]
    norm_num
  have hlift : liftAccOf cruise10 = 0 := liftAccOf_of_stalled cruise10 hst
  have htl : thrustLiftAcc cruise10 = ⟨0, 0, 0⟩ := by
    rw [thrustLiftAcc_zero_angles cruise10 rfl rfl rfl hlift]
    ext <;> simp [THRUST_ACCEL, cruise10]
  have hacc : accelOf cruise10 = ⟨-0.18, -9.81, 0⟩ := by
    rw [accelOf_eq_drag cruise10 (by rw [hL]; norm_num), htl, hL]
    ext <;> simp [Vec3.addScaled, DRAG_FACTOR, GRAVITY,
      show cruise10.velocity = ⟨10, 0, 0⟩ from rfl] <;> norm_num
  have hpre : preCapVel cruise10 d = ⟨10 + -0.18 * d, -(9.81 * d), 0⟩ := by
    rw [preCapVel, hacc]
    show Vec3.addScaled ⟨10, 0, 0⟩ _ _ = _
    ext <;> simp [Vec3.addScaled] <;> ring
  have hcap : ¬ (preCapVel cruise10 d).length > MAX_SPEED := by
    rw [hpre, not_lt, MAX_SPEED, Vec3.length_mk]
    apply sqrt_le_of_le_sq (by norm_num)
    nlinarith
  have := update_phys_airborne cruise10 noKeys d cruise10 h1
    (by show ¬ (100 : ℝ) ≤ groundY; rw [groundY]; norm_num)
    (by rw [hmin]; exact hcap)
  rw [this, hmin, hpre, hlift, hL]
  ext <;> simp [Vec3.addScaled, GRAVITY, cruise10] <;> ring_nf

/-! ### The auto-level run (claim C6) -/

lemma thrustLiftAcc_idle (s : FlightState) (hth : s.throttle = 0)
    (hlift : liftAccOf s = 0) : thrustLiftAcc s = ⟨0, 0, 0⟩ := by
  rw [thrustLiftAcc, hth, hlift]
  ext <;> simp [Vec3.addScaled]

/-- One idle tick at `dt = 1/60` of a banked, engine-off, airborne state that
is falling straight down: the roll decays by exactly one factor 0.97, the yaw
picks up the bank coupling, and the vertical velocity integrates gravity
minus a small drag correction. -/
lemma c6Step (px py pz r yw vyv sp gf : ℝ)
    (hr0 : 0 ≤ r) (hr5 : r ≤ 0.5) (hvy1 : -(9.81) ≤ vyv) (hvy0 : vyv ≤ 0)
    (hpy : 2 ≤ py) :
    ∃ vy2 : ℝ,
      update ⟨⟨px, py, pz⟩, ⟨0, vyv, 0⟩, 0, r, yw, 0, sp, gf, false⟩ noKeys (1 / 60) =
        ⟨⟨px, py + vy2 * (1 / 60), pz⟩, ⟨0, vy2, 0⟩, 0, r * 0.97,
          yw + r * 0.35 * (1 / 60), 0, Vec3.length ⟨0, vyv, 0⟩, 1, false⟩ ∧
      vyv - 9.81 / 60 ≤ vy2 ∧ vy2 ≤ vyv - 9.6 / 60 := by
  set S : FlightState := ⟨⟨px, py, pz⟩, ⟨0, vyv, 0⟩, 0, r, yw, 0, sp, gf, false⟩ with hS
  have hmin : min (1 / 60 : ℝ) 0.05 = 1 / 60 := min_eq_left (by norm_num)
  have hexp : (1 / 60 : ℝ) * 60 = 1 := by norm_num
  set S1 : FlightState := ⟨⟨px, py, pz⟩, ⟨0, vyv, 0⟩, 0, r * 0.97,
    yw + r * 0.35 * (1 / 60), 0, sp, gf, false⟩ with hS1
  have h1 : controlPhase S noKeys (min (1 / 60 : ℝ) 0.05) = S1 := by
    rw [hmin, controlPhase_noKeys_eq]
    have hclp : max (-MAX_PITCH) (min MAX_PITCH S.pitch) = 0 := clamp_zero MAX_PITCH_pos.le
    have hclr : max (-MAX_ROLL) (min MAX_ROLL S.roll) = r := by
      show max (-MAX_ROLL) (min MAX_ROLL r) = r
      exact clamp_eq_self (by linarith [MAX_ROLL_pos]) (by linarith [MAX_ROLL_ge])
    rw [hclp, hclr, hexp, Real.rpow_one]
    ext <;> simp [PITCH_DAMPING, ROLL_DAMPING]
  have hL : S1.velocity.length = -vyv := by
    show Vec3.length ⟨0, vyv, 0⟩ = -vyv
    rw [Vec3.length_yAxis, abs_of_nonpos hvy0]
  have hst : stalledAt S1 := by
    refine ⟨?_, rfl⟩
    rw [hL, STALL_SPEED]
    linarith
  have hlift : liftAccOf S1 = 0 := liftAccOf_of_stalled S1 hst
  have htl : thrustLiftAcc S1 = ⟨0, 0, 0⟩ := thrustLiftAcc_idle S1 rfl hlift
  obtain ⟨c, hc0, hcU, hacc⟩ : ∃ c : ℝ, 0 ≤ c ∧ c ≤ 0.018 ∧
      accelOf S1 = ⟨0, vyv * (-c) - 9.81, 0⟩ := by
    by_cases h : (0.01 : ℝ) < S1.velocity.length
    · refine ⟨DRAG_FACTOR * S1.velocity.length, ?_, ?_, ?_⟩
      · have := Vec3.length_nonneg S1.velocity
        rw [DRAG_FACTOR]
        positivity
      · rw [DRAG_FACTOR, hL]
        nlinarith
      · rw [accelOf_eq_drag S1 h, htl, hL]
        ext <;> simp [Vec3.addScaled, GRAVITY] <;> ring
    · refine ⟨0, le_rfl, by norm_num, ?_⟩
      rw [accelOf_eq_no_drag S1 (not_lt.mp h), htl]
      ext <;> simp [GRAVITY] <;> ring
  set vy2 := vyv + (vyv * (-c) - 9.81) * (1 / 60) with hvy2def
  clear_value vy2
  have hpre : preCapVel S1 (1 / 60) = ⟨0, vy2, 0⟩ := by
    rw [preCapVel, hacc]
    show Vec3.addScaled ⟨0, vyv, 0⟩ _ _ = _
    ext <;> simp [Vec3.addScaled, hvy2def] <;> ring
  have hbL : vyv - 9.81 / 60 ≤ vy2 := by
    rw [hvy2def]
    nlinarith
  have hbU : vy2 ≤ vyv - 9.6 / 60 := by
    rw [hvy2def]
    nlinarith
  have hcap : ¬ (preCapVel S1 (1 / 60)).length > MAX_SPEED := by
    rw [hpre, not_lt, MAX_SPEED, Vec3.length_mk]
    apply sqrt_le_of_le_sq (by norm_num)
    have h10 : (0 : ℝ) ≤ vy2 + 10 := by linarith
    have h0' : (0 : ℝ) ≤ -vy2 := by linarith
    nlinarith [mul_nonneg h10 h0']
  have heval := update_phys_airborne S noKeys (1 / 60) S1 h1
    (by show ¬ py ≤ groundY; rw [groundY]; linarith) (by rw [hmin]; exact hcap)
  refine ⟨vy2, ?_, hbL, hbU⟩
  rw [heval, hmin, hpre, hlift]
  have hsp1 : S1.velocity.length = Vec3.length ⟨0, vyv, 0⟩ := rfl
  rw [hsp1]
  ext <;> simp [Vec3.addScaled, GRAVITY] <;> ring

/-- Invariant of the auto-level run: after `k ≤ 60` idle ticks the roll is
exactly `0.5 * 0.97 ^ k`, the aircraft is still airborne, and the vertical
velocity is bounded by free fall. -/
lemma c6Inv (k : ℕ) (hk : k ≤ 60) :
    ∃ vyv yw py sp gf : ℝ,
      c6run k = ⟨⟨0, py, 0⟩, ⟨0, vyv, 0⟩, 0, 0.5 * 0.97 ^ k, yw, 0, sp, gf, false⟩ ∧
      -(9.81) * k / 60 ≤ vyv ∧ vyv ≤ 0 ∧ 100 - 0.2 * k ≤ py := by
  induction k with
  | zero =>
    refine ⟨0, 0, 100, 0, 1, ?_, by norm_num, le_rfl, by norm_num⟩
    show c6start = _
    ext <;> norm_num [c6start]
  | succ n ih =>
    obtain ⟨vyv, yw, py, sp, gf, heq, h1, h2, h3⟩ := ih (by omega)
    have hn60 : (n : ℝ) ≤ 59 := by
      have : n ≤ 59 := by omega
      exact_mod_cast this
    have hr0 : (0 : ℝ) ≤ 0.5 * 0.97 ^ n := by positivity
    have hr5 : 0.5 * (0.97 : ℝ) ^ n ≤ 0.5 := by
      nlinarith [pow_le_one (n := n) (by norm_num : (0:ℝ) ≤ 0.97)
          (by norm_num : (0.97:ℝ) ≤ 1),
        pow_nonneg (by norm_num : (0:ℝ) ≤ 0.97) n]
    have hvy1 : -(9.81) ≤ vyv := by nlinarith
    have hpy2 : (2 : ℝ) ≤ py := by nlinarith
    obtain ⟨vy2, hstep, hbL, hbU⟩ :=
      c6Step 0 py 0 (0.5 * 0.97 ^ n) yw vyv sp gf hr0 hr5 hvy1 h2 hpy2
    refine ⟨vy2, yw + (0.5 * 0.97 ^ n) * 0.35 * (1 / 60), py + vy2 * (1 / 60),
      Vec3.length ⟨0, vyv, 0⟩, 1, ?_, ?_, ?_, ?_⟩
    · have hrun : c6run (n + 1) = update (c6run n) noKeys (1 / 60) := rfl
      rw [hrun, heq, hstep]
      have hp : (0.5 : ℝ) * 0.97 ^ n * 0.97 = 0.5 * 0.97 ^ (n + 1) := by
        rw [pow_succ]
        ring
      rw [hp]
    · push_cast
      linarith
    · linarith
    · push_cast
      linarith

/-! ### Claim C6 -/

/-- C6 counterexample: with no roll/pitch intents and roll starting at 0.5,
one second of ticks at `dt = 1/60` does not leave `|roll| ≈ 0.485` (within
any tolerance up to 0.1): the damping multiplies the roll by 0.97 on every
tick, so after 60 ticks the roll is `0.5 * 0.97^60 ≈ 0.0805`. -/
theorem C6_counterexample :
    ¬ (∀ (s : FlightState) (ks : ℕ → Keys), s.roll = 0.5 →
        (∀ i, (ks i).keyW = false ∧ (ks i).keyS = false ∧
              (ks i).keyA = false ∧ (ks i).keyD = false) →
        |abs ((iterFrom s ks (1 / 60) 60).roll) - 0.485| ≤ 0.1) := by
  intro h
  have h60 := h c6start (fun _ => noKeys) rfl (fun _ => ⟨rfl, rfl, rfl, rfl⟩)
  obtain ⟨vyv, yw, py, sp, gf, heq, -, -, -⟩ := c6Inv 60 le_rfl
  rw [show iterFrom c6start (fun _ => noKeys) (1 / 60) 60 = c6run 60 from rfl, heq] at h60
  have h60' : |abs ((0.5 : ℝ) * 0.97 ^ 60) - 0.485| ≤ 0.1 := h60
  have habs : abs ((0.5 : ℝ) * 0.97 ^ 60) = 0.5 * 0.97 ^ 60 := abs_of_nonneg (by positivity)
  rw [habs, abs_le] at h60'
  have hsmall : (0.5 : ℝ) * 0.97 ^ 60 < 0.2 := by norm_num
  linarith [h60'.1]

/-- C6 (corrected): the auto-level damping is geometric with per-tick factor
`0.97^(dt*60)`, i.e. 0.97 per tick at 60 Hz.  `0.5 * 0.97 ≈ 0.485` is the
roll after ONE tick; after 1 second (60 ticks at `dt = 1/60`) the roll is
exactly `0.5 * 0.97^60 ≈ 0.0805 < 0.1`. -/
theorem C6_auto_level_decay :
    (c6run 1).roll = 0.5 * 0.97 ∧
    (c6run 60).roll = 0.5 * (0.97 : ℝ) ^ 60 ∧
    (0.5 : ℝ) * 0.97 ^ 60 < 0.1 := by
  refine ⟨?_, ?_, by norm_num⟩
  · obtain ⟨vyv, yw, py, sp, gf, heq, -, -, -⟩ := c6Inv 1 (by norm_num)
    rw [heq]
    show (0.5 : ℝ) * 0.97 ^ 1 = 0.5 * 0.97
    rw [pow_one]
  · obtain ⟨vyv, yw, py, sp, gf, heq, -, -, -⟩ := c6Inv 60 le_rfl
    rw [heq]

/-! ### The descent run (claim C1) -/

/-- One idle tick at `dt = 0.05` of a level, airborne, slow descending state
at spawn throttle 0.3: stalled (no lift), thrust 6.6 m/s² along x, gravity,
and a small drag correction; the ground test sees the pre-integration height
`py > 1.1` and the position then integrates the new velocity. -/
lemma fallStep (px py pz vx vy sp gf : ℝ)
    (hvx0 : 0 ≤ vx) (hvx4 : vx ≤ 4) (hvy5 : -5 ≤ vy) (hvy0 : vy ≤ 0)
    (hpy : groundY < py) :
    ∃ vx2 vy2 : ℝ,
      update ⟨⟨px, py, pz⟩, ⟨vx, vy, 0⟩, 0, 0, 0, 0.3, sp, gf, false⟩ noKeys 0.05 =
        ⟨⟨px + vx2 * 0.05, py + vy2 * 0.05, pz⟩, ⟨vx2, vy2, 0⟩, 0, 0, 0, 0.3,
          Vec3.length ⟨vx, vy, 0⟩, 1, false⟩ ∧
      0 ≤ vx2 ∧ vx2 ≤ vx + 0.33 ∧ vy - 0.4905 ≤ vy2 ∧ vy2 ≤ vy - 0.4875 := by
  set S : FlightState := ⟨⟨px, py, pz⟩, ⟨vx, vy, 0⟩, 0, 0, 0, 0.3, sp, gf, false⟩ with hS
  have hmin : min (0.05 : ℝ) 0.05 = 0.05 := min_eq_left le_rfl
  have h1 : controlPhase S noKeys (min (0.05 : ℝ) 0.05) = S :=
    controlPhase_noKeys S _ rfl rfl
  have hL0 : 0 ≤ Vec3.length ⟨vx, vy, 0⟩ := Vec3.length_nonneg _
  have hLup : Vec3.length ⟨vx, vy, 0⟩ ≤ 6.5 := by
    rw [Vec3.length_mk]
    apply sqrt_le_of_le_sq (by norm_num)
    nlinarith
  have hst : stalledAt S := by
    refine ⟨?_, rfl⟩
    show Vec3.length ⟨vx, vy, 0⟩ < STALL_SPEED
    rw [STALL_SPEED]
    linarith
  have hlift : liftAccOf S = 0 := liftAccOf_of_stalled S hst
  have htl : thrustLiftAcc S = ⟨6.6, 0, 0⟩ := by
    rw [thrustLiftAcc_zero_angles S rfl rfl rfl hlift]
    ext <;> simp [THRUST_ACCEL]
    norm_num
  obtain ⟨c, hc0, hcU, hacc⟩ : ∃ c : ℝ, 0 ≤ c ∧ c ≤ 0.0117 ∧
      accelOf S = ⟨6.6 + vx * (-c), vy * (-c) - 9.81, 0⟩ := by
    by_cases h : (0.01 : ℝ) < S.velocity.length
    · refine ⟨DRAG_FACTOR * Vec3.length ⟨vx, vy, 0⟩, ?_, ?_, ?_⟩
      · rw [DRAG_FACTOR]
        positivity
      · rw [DRAG_FACTOR]
        nlinarith
      · rw [accelOf_eq_drag S h, htl]
        ext <;> simp [Vec3.addScaled, GRAVITY] <;> ring
    · refine ⟨0, le_rfl, by norm_num, ?_⟩
      rw [accelOf_eq_no_drag S (not_lt.mp h), htl]
      ext <;> simp [GRAVITY] <;> ring
  set vx2 := vx + (6.6 + vx * (-c)) * 0.05 with hvx2def
  set vy2 := vy + (vy * (-c) - 9.81) * 0.05 with hvy2def
  clear_value vx2 vy2
  have hpre : preCapVel S 0.05 = ⟨vx2, vy2, 0⟩ := by
    rw [preCapVel, hacc]
    show Vec3.addScaled ⟨vx, vy, 0⟩ _ _ = _
    ext <;> simp [Vec3.addScaled, hvx2def, hvy2def] <;> ring
  have hbx0 : 0 ≤ vx2 := by
    rw [hvx2def]
    nlinarith
  have hbxU : vx2 ≤ vx + 0.33 := by
    rw [hvx2def]
    nlinarith
  have hbyL : vy - 0.4905 ≤ vy2 := by
    rw [hvy2def]
    nlinarith
  have hbyU : vy2 ≤ vy - 0.4875 := by
    rw [hvy2def]
    nlinarith
  have hcap : ¬ (preCapVel S 0.05).length > MAX_SPEED := by
    rw [hpre, not_lt, MAX_SPEED, Vec3.length_mk]
    apply sqrt_le_of_le_sq (by norm_num)
    have h10 : (0 : ℝ) ≤ vy2 + 6 := by linarith
    have h0' : (0 : ℝ) ≤ -vy2 := by linarith
    nlinarith [mul_nonneg h10 h0']
  have heval := update_phys_airborne S noKeys 0.05 S h1
    (by show ¬ py ≤ groundY; exact not_le.mpr hpy) (by rw [hmin]; exact hcap)
  refine ⟨vx2, vy2, ?_, hbx0, hbxU, hbyL, hbyU⟩
  rw [heval, hmin, hpre, hlift]
  ext <;> simp [Vec3.addScaled, GRAVITY] <;> ring

/-! ### Claim C1 -/

set_option maxHeartbeats 2000000 in
/-- C1 counterexample: "for every reachable state and every tick,
`position.y ≥ groundClearance` at the end of the tick" is false.  The ground
clamp runs before the position integration, so a descending airborne tick may
end below 1.1: after eight idle ticks at `dt = 0.05` from the initial state,
the aircraft has fallen to `y ≈ 1.12` with `vy ≈ -4`, and the ninth tick ends
near `y ≈ 0.9 < 1.1`. -/
theorem C1_counterexample :
    ¬ (∀ s : FlightState, Reachable s → ∀ (k : Keys) (d : ℝ), 0 ≤ d → d ≤ 0.05 →
        groundY ≤ (update s k d).position.y) := by
  intro h
  have e1 : update initState noKeys 0.05 =
      ⟨⟨0.0165, 1.975475, 0⟩, ⟨0.33, -0.4905, 0⟩, 0, 0, 0, 0.3, 0, 1, false⟩ := by
    rw [physFromSpawn initState noKeys 0.05 1.0 true (by norm_num) (by norm_num)
      (controlPhase_noKeys initState _ rfl rfl)]
    ext <;> norm_num
  have R1 : Reachable (⟨⟨0.0165, 1.975475, 0⟩, ⟨0.33, -0.4905, 0⟩,
      0, 0, 0, 0.3, 0, 1, false⟩ : FlightState) := by
    rw [← e1]
    exact Reachable.step _ _ _ Reachable.init (by norm_num) le_rfl
  obtain ⟨a2, b2, e2, ha2, ha2', hb2, hb2'⟩ :=
    fallStep 0.0165 1.975475 0 0.33 (-0.4905) 0 1
      (by norm_num) (by norm_num) (by norm_num) (by norm_num)
      (by rw [groundY]; norm_num)
  have R2 : Reachable _ := e2 ▸ Reachable.step _ noKeys 0.05 R1 (by norm_num) le_rfl
  obtain ⟨a3, b3, e3, ha3, ha3', hb3, hb3'⟩ :=
    fallStep (0.0165 + a2 * 0.05) (1.975475 + b2 * 0.05) 0 a2 b2
      (Vec3.length ⟨0.33, -0.4905, 0⟩) 1
      (by linarith) (by linarith) (by linarith) (by linarith)
      (by rw [groundY]; linarith)
  have R3 : Reachable _ := e3 ▸ Reachable.step _ noKeys 0.05 R2 (by norm_num) le_rfl
  obtain ⟨a4, b4, e4, ha4, ha4', hb4, hb4'⟩ :=
    fallStep (0.0165 + a2 * 0.05 + a3 * 0.05) (1.975475 + b2 * 0.05 + b3 * 0.05) 0 a3 b3
      (Vec3.length ⟨a2, b2, 0⟩) 1
      (by linarith) (by linarith) (by linarith) (by linarith)
      (by rw [groundY]; linarith)
  have R4 : Reachable _ := e4 ▸ Reachable.step _ noKeys 0.05 R3 (by norm_num) le_rfl
  obtain ⟨a5, b5, e5, ha5, ha5', hb5, hb5'⟩ :=
    fallStep (0.0165 + a2 * 0.05 + a3 * 0.05 + a4 * 0.05)
      (1.975475 + b2 * 0.05 + b3 * 0.05 + b4 * 0.05) 0 a4 b4
      (Vec3.length ⟨a3, b3, 0⟩) 1
      (by linarith) (by linarith) (by linarith) (by linarith)
      (by rw [groundY]; linarith)
  have R5 : Reachable _ := e5 ▸ Reachable.step _ noKeys 0.05 R4 (by norm_num) le_rfl
  obtain ⟨a6, b6, e6, ha6, ha6', hb6, hb6'⟩ :=
    fallStep (0.0165 + a2 * 0.05 + a3 * 0.05 + a4 * 0.05 + a5 * 0.05)
      (1.975475 + b2 * 0.05 + b3 * 0.05 + b4 * 0.05 + b5 * 0.05) 0 a5 b5
      (Vec3.length ⟨a4, b4, 0⟩) 1
      (by linarith) (by linarith) (by linarith) (by linarith)
      (by rw [groundY]; linarith)
  have R6 : Reachable _ := e6 ▸ Reachable.step _ noKeys 0.05 R5 (by norm_num) le_rfl
  obtain ⟨a7, b7, e7, ha7, ha7', hb7, hb7'⟩ :=
    fallStep (0.0165 + a2 * 0.05 + a3 * 0.05 + a4 * 0.05 + a5 * 0.05 + a6 * 0.05)
      (1.975475 + b2 * 0.05 + b3 * 0.05 + b4 * 0.05 + b5 * 0.05 + b6 * 0.05) 0 a6 b6
      (Vec3.length ⟨a5, b5, 0⟩) 1
      (by linarith) (by linarith) (by linarith) (by linarith)
      (by rw [groundY]; linarith)
  have R7 : Reachable _ := e7 ▸ Reachable.step _ noKeys 0.05 R6 (by norm_num) le_rfl
  obtain ⟨a8, b8, e8, ha8, ha8', hb8, hb8'⟩ :=
    fallStep (0.0165 + a2 * 0.05 + a3 * 0.05 + a4 * 0.05 + a5 * 0.05 + a6 * 0.05
        + a7 * 0.05)
      (1.975475 + b2 * 0.05 + b3 * 0.05 + b4 * 0.05 + b5 * 0.05 + b6 * 0.05
        + b7 * 0.05) 0 a7 b7
      (Vec3.length ⟨a6, b6, 0⟩) 1
      (by linarith) (by linarith) (by linarith) (by linarith)
      (by rw [groundY]; linarith)
  have R8 : Reachable _ := e8 ▸ Reachable.step _ noKeys 0.05 R7 (by norm_num) le_rfl
  obtain ⟨a9, b9, e9, ha9, ha9', hb9, hb9'⟩ :=
    fallStep (0.0165 + a2 * 0.05 + a3 * 0.05 + a4 * 0.05 + a5 * 0.05 + a6 * 0.05
        + a7 * 0.05 + a8 * 0.05)
      (1.975475 + b2 * 0.05 + b3 * 0.05 + b4 * 0.05 + b5 * 0.05 + b6 * 0.05
        + b7 * 0.05 + b8 * 0.05) 0 a8 b8
      (Vec3.length ⟨a7, b7, 0⟩) 1
      (by linarith) (by linarith) (by linarith) (by linarith)
      (by rw [groundY]; linarith)
  have hfin := h _ R8 noKeys 0.05 (by norm_num) le_rfl
  rw [e9] at hfin
  have hy9 : groundY ≤ 1.975475 + b2 * 0.05 + b3 * 0.05 + b4 * 0.05 + b5 * 0.05
      + b6 * 0.05 + b7 * 0.05 + b8 * 0.05 + b9 * 0.05 := hfin
  rw [groundY] at hy9
  linarith

/-- C1 (corrected): the floor is enforced at the ground test, not at end of
tick.  Whenever the ground test sees `position.y ≤ 1.1` the tick ends with
`position.y ≥ 1.1` (the height is snapped to 1.1 and the vertical velocity is
non-negative afterwards); and whenever the test sees `position.y = 1.1`
exactly with pre-clamp `velocity.y < 0`, the post-tick `velocity.y` is 0.  An
airborne descending tick, however, may end below 1.1 (caught only at the next
tick's ground test). -/
theorem C1_ground_floor (s : FlightState) (k : Keys) (d : ℝ)
    (h0 : 0 ≤ d) (h5 : d ≤ 0.05) :
    ((controlPhase s k (min d 0.05)).position.y ≤ groundY →
      groundY ≤ (update s k d).position.y) ∧
    ((controlPhase s k (min d 0.05)).position.y = groundY →
      (postCapVel (controlPhase s k (min d 0.05)) (min d 0.05)).y < 0 →
      (update s k d).velocity.y = 0) := by
  have hdt : 0 ≤ min d 0.05 := le_min h0 (by norm_num)
  constructor
  · intro hg
    rw [update_position, groundPhase, if_pos hg]
    show groundY ≤ groundY + (groundedVel _ _).y * min d 0.05
    have hy : 0 ≤ (groundedVel (postCapVel (controlPhase s k (min d 0.05)) (min d 0.05))
        (min d 0.05)).y := by
      rw [groundedVel]
      split_ifs with hv
      · exact le_rfl
      · exact not_lt.mp hv
    nlinarith
  · intro hg hv
    rw [update_velocity, groundPhase, if_pos (le_of_eq hg)]
    show (groundedVel _ _).y = 0
    rw [groundedVel, if_pos hv]

/-- Witness for C1 at a concrete grounded sinking state. -/
theorem C1_ground_floor_witness :
    groundY ≤ (update sinkAtGround noKeys 0).position.y ∧
      (update sinkAtGround noKeys 0).velocity.y = 0 := by
  have h1 : controlPhase sinkAtGround noKeys (min (0 : ℝ) 0.05) = sinkAtGround :=
    controlPhase_noKeys sinkAtGround _ rfl rfl
  have hgy : (controlPhase sinkAtGround noKeys (min (0 : ℝ) 0.05)).position.y = groundY := by
    rw [h1]
    show (1.1 : ℝ) = groundY
    rw [groundY]
  have hpre : preCapVel (controlPhase sinkAtGround noKeys (min (0 : ℝ) 0.05))
      (min (0 : ℝ) 0.05) = sinkAtGround.velocity := by
    rw [h1, preCapVel, show min (0 : ℝ) 0.05 = 0 from min_eq_left (by norm_num),
      Vec3.addScaled_zero]
  have hcap : ¬ (preCapVel (controlPhase sinkAtGround noKeys (min (0 : ℝ) 0.05))
      (min (0 : ℝ) 0.05)).length > MAX_SPEED := by
    rw [hpre, not_lt]
    show Vec3.length ⟨0, -1, 0⟩ ≤ MAX_SPEED
    rw [Vec3.length_yAxis, MAX_SPEED]
    norm_num
  have hvy : (postCapVel (controlPhase sinkAtGround noKeys (min (0 : ℝ) 0.05))
      (min (0 : ℝ) 0.05)).y < 0 := by
    rw [postCapVel, if_neg hcap, hpre]
    norm_num [sinkAtGround]
  exact ⟨(C1_ground_floor sinkAtGround noKeys 0 le_rfl (by norm_num)).1 (le_of_eq hgy),
    (C1_ground_floor sinkAtGround noKeys 0 le_rfl (by norm_num)).2 hgy hvy⟩

/-! ### Claim C2 -/

/-- C2 counterexample: the claim — a reset short-circuits the tick, leaving
the documented defaults (in particular `onGround = true`) at end of tick —
is false: the tick keeps running after `resetAirplane`, and already at
`dt = 0` the ground test sees the spawn height `y = 2 > 1.1` and overwrites
`onGround` with `false`. -/
theorem C2_counterexample :
    ¬ (∀ (s : FlightState) (k : Keys) (d : ℝ), 0 ≤ d → d ≤ 0.05 → k.space = true →
        ((update s k d).position = ⟨0, 2, 0⟩ ∧ (update s k d).velocity = ⟨0, 0, 0⟩ ∧
         (update s k d).pitch = 0 ∧ (update s k d).roll = 0 ∧ (update s k d).yaw = 0 ∧
         (update s k d).throttle = 0.3 ∧ (update s k d).speed = 0 ∧
         (update s k d).onGround = true)) := by
  intro h
  have hog := (h initState spaceKey 0 le_rfl (by norm_num) rfl).2.2.2.2.2.2.2
  rw [resetTick_eval initState spaceKey 0 le_rfl (by norm_num) rfl] at hog
  simp at hog

/-- C2 (corrected): the reset intent does not short-circuit the tick: it sets
the documented defaults mid-tick and the remaining components still run on
them.  At the end of a reset tick the angles are 0, throttle 0.3, speed 0,
but `velocity = (6.6 dt, -9.81 dt, 0)`, `position = (6.6 dt², 2 - 9.81 dt²,
0)`, and — because the ground test sees the spawn height `y = 2 > 1.1` —
`onGround = false`, regardless of prior state. -/
theorem C2_reset_tick (s : FlightState) (k : Keys) (d : ℝ)
    (h0 : 0 ≤ d) (h5 : d ≤ 0.05) (hs : k.space = true) :
    update s k d =
      ⟨⟨6.6 * (d * d), 2 - 9.81 * (d * d), 0⟩, ⟨6.6 * d, -(9.81 * d), 0⟩,
        0, 0, 0, 0.3, 0, 1, false⟩ :=
  resetTick_eval s k d h0 h5 hs

/-- Witness for C2 at a concrete reset tick. -/
theorem C2_reset_tick_witness :
    update initState spaceKey 0.05 =
      ⟨⟨6.6 * (0.05 * 0.05), 2 - 9.81 * (0.05 * 0.05), 0⟩,
       ⟨6.6 * 0.05, -(9.81 * 0.05), 0⟩, 0, 0, 0, 0.3, 0, 1, false⟩ :=
  C2_reset_tick initState spaceKey 0.05 (by norm_num) (by norm_num) rfl

/-! ### Claim C3 -/

/-- C3 counterexample: the stall flag is not always `speed < 20` and the
previous tick's `onGround = false`: on a reset tick whose incoming state was
airborne, the reset sets `onGround := true` (and zeroes the velocity) before
the stall check runs, so the flag is off although the claimed predicate over
the previous tick's `onGround` holds. -/
theorem C3_counterexample :
    ¬ (∀ (s : FlightState) (k : Keys) (d : ℝ),
        stallFlag s k d ↔
          ((controlPhase s k (min d 0.05)).velocity.length < STALL_SPEED ∧
            s.onGround = false)) := by
  intro h
  have hiff := h airborneInit spaceKey 0
  rw [stallFlag, controlPhase_space_eq airborneInit spaceKey _ rfl] at hiff
  have hflag := hiff.mpr ⟨by
    show Vec3.length ⟨0, 0, 0⟩ < STALL_SPEED
    rw [Vec3.length_zero, STALL_SPEED]
    norm_num, rfl⟩
  obtain ⟨-, hog⟩ := hflag
  simp at hog

/-- C3 (corrected): for every reset-free tick the claim holds as stated: the
stall flag is on iff `speed < STALL_SPEED` — where the speed at the start of
the physics phase equals the incoming `|velocity|` — and the previous tick's
`onGround` is false.  (On a reset tick the flag instead reads the reset
state: `onGround = true` and zero velocity, so it is off.) -/
theorem C3_stall_predicate (s : FlightState) (k : Keys) (d : ℝ) (hs : k.space = false) :
    stallFlag s k d ↔ (s.velocity.length < STALL_SPEED ∧ s.onGround = false) :=
  stallFlag_of_noReset s k d hs

/-- Witness for C3: a concrete stalled, reset-free tick. -/
theorem C3_stall_predicate_witness : stallFlag c6start noKeys 0 :=
  (C3_stall_predicate c6start noKeys 0 rfl).mpr ⟨by
    show Vec3.length ⟨0, 0, 0⟩ < STALL_SPEED
    rw [Vec3.length_zero, STALL_SPEED]
    norm_num, rfl⟩

/-! ### Claim C7 -/

/-- C7 counterexample: a non-positive `dt` is not treated as zero.  The step
only caps `dt` from above (`Math.min(dt, 0.05)`), so `dt = -1` integrates
with the negative value (the aircraft moves backwards) instead of skipping
integration like `dt = 0` does. -/
theorem C7_counterexample :
    ¬ (∀ (s : FlightState) (k : Keys) (d : ℝ), d ≤ 0 →
        update s k d = update s k 0) := by
  intro h
  have hx := congrArg (fun st : FlightState => st.position.x)
    (h cruise10 noKeys (-1) (by norm_num))
  rw [cruiseTick_eval (-1) (by norm_num) (by norm_num),
    cruiseTick_eval 0 (by norm_num) (by norm_num)] at hx
  norm_num at hx

/-- C7 (corrected): only an upper cap is applied to `dt`.  For `dt = 0` the
step indeed performs no integration — position and velocity are unchanged on
a reset-free tick that is airborne and within the speed cap — and the step is
a total function; but a negative `dt` is integrated as-is, not treated as
zero. -/
theorem C7_dt_zero (s : FlightState) (k : Keys) (hs : k.space = false)
    (hv : s.velocity.length ≤ MAX_SPEED) (hair : groundY < s.position.y) :
    (update s k 0).position = s.position ∧ (update s k 0).velocity = s.velocity := by
  have hmin : min (0 : ℝ) 0.05 = 0 := min_eq_left (by norm_num)
  have hvel : (controlPhase s k (min (0 : ℝ) 0.05)).velocity = s.velocity := by
    rw [controlPhase_velocity, hs]
    simp
  have hposn : (controlPhase s k (min (0 : ℝ) 0.05)).position = s.position := by
    rw [controlPhase_position, hs]
    simp
  have hpre : preCapVel (controlPhase s k (min (0 : ℝ) 0.05)) (min (0 : ℝ) 0.05)
      = s.velocity := by
    rw [preCapVel, hvel, hmin, Vec3.addScaled_zero]
  have hcap : ¬ (preCapVel (controlPhase s k (min (0 : ℝ) 0.05)) (min (0 : ℝ) 0.05)).length
      > MAX_SPEED := by
    rw [hpre]
    exact not_lt.mpr hv
  have hgr : ¬ (controlPhase s k (min (0 : ℝ) 0.05)).position.y ≤ groundY := by
    rw [hposn]
    exact not_le.mpr hair
  rw [hmin] at hvel hposn hpre hcap hgr
  constructor
  · rw [update_position, hmin, groundPhase, if_neg hgr, Vec3.addScaled_zero, hposn]
  · rw [update_velocity, hmin, groundPhase, if_neg hgr]
    show postCapVel _ _ = s.velocity
    rw [postCapVel, if_neg hcap, hpre]

/-- Witness for C7 at a concrete airborne cruising state. -/
theorem C7_dt_zero_witness :
    (update cruise10 noKeys 0).position = cruise10.position ∧
      (update cruise10 noKeys 0).velocity = cruise10.velocity :=
  C7_dt_zero cruise10 noKeys rfl
    (by
      show Vec3.length ⟨10, 0, 0⟩ ≤ MAX_SPEED
      rw [Vec3.length_xAxis 10 (by norm_num), MAX_SPEED]
      norm_num)
    (by
      show groundY < (100 : ℝ)
      rw [groundY]
      norm_num)

/-! ### Claim C10 -/

/-- C10 (confirmed): `resetAirplane` assigns exactly position, velocity, pitch,
roll, yaw, throttle, speed and onGround (to the documented defaults); the one
remaining field of the aircraft state, `gForce`, is left unchanged. -/
theorem C10_reset_writes_exactly (s : FlightState) :
    resetAirplane s =
      ⟨⟨0, 2, 0⟩, ⟨0, 0, 0⟩, 0, 0, 0, 0.3, 0, s.gForce, true⟩ := rfl

/-! ### Claim C9 -/

/-- C9 (confirmed): after every tick (all ticks reach the physics phase), the
derived `gForce` is at least 1, and on a stalled tick (zero lift term) it is
exactly 1. -/
theorem C9_gforce_floor (s : FlightState) (k : Keys) (dtRaw : ℝ)
    (h0 : 0 ≤ dtRaw) (h5 : dtRaw ≤ 0.05) :
    1 ≤ (update s k dtRaw).gForce ∧
      (stallFlag s k dtRaw → (update s k dtRaw).gForce = 1) := by
  rw [update_gForce]
  constructor
  · have := abs_nonneg (liftAccOf (controlPhase s k (min dtRaw 0.05)) / GRAVITY)
    linarith
  · intro hf
    rw [stallFlag] at hf
    rw [liftAccOf, if_pos hf]
    norm_num

/-- Witness for C9 at a concrete stalled tick. -/
theorem C9_gforce_floor_witness : (update c6start noKeys 0).gForce = 1 :=
  (C9_gforce_floor c6start noKeys 0 le_rfl (by norm_num)).2 stallFlag_c6start

/-! ### Claim C8 -/

/-- C8 (confirmed): the drag term is added to the acceleration only when the
speed exceeds 0.01 (otherwise it is skipped), and in that case the division
by the velocity magnitude is by a nonzero quantity and reduces to the
division-free form `-(DRAG_FACTOR * speed) • velocity`. -/
theorem C8_drag_guard (s : FlightState) :
    (s.velocity.length ≤ 0.01 →
      accelOf s = { thrustLiftAcc s with y := (thrustLiftAcc s).y - GRAVITY }) ∧
    (0.01 < s.velocity.length →
      s.velocity.length ≠ 0 ∧
      accelOf s =
        { (thrustLiftAcc s).addScaled s.velocity (-(DRAG_FACTOR * s.velocity.length)) with
          y := ((thrustLiftAcc s).addScaled s.velocity
                  (-(DRAG_FACTOR * s.velocity.length))).y - GRAVITY }) := by
  constructor
  · intro h
    rw [accelOf, if_neg (not_lt.mpr h)]
  · intro h
    have hne : s.velocity.length ≠ 0 := by
      intro h0
      rw [h0] at h
      norm_num at h
    refine ⟨hne, ?_⟩
    have hc : -(s.velocity.length ^ 2 * DRAG_FACTOR) / s.velocity.length
        = -(DRAG_FACTOR * s.velocity.length) := by
      field_simp
      ring
    rw [accelOf, if_pos h, hc]

/-- Witness for C8 on a concrete moving state, drag branch taken. -/
theorem C8_drag_guard_witness :
    accelOf cruise10 =
      { (thrustLiftAcc cruise10).addScaled cruise10.velocity
          (-(DRAG_FACTOR * cruise10.velocity.length)) with
        y := ((thrustLiftAcc cruise10).addScaled cruise10.velocity
                (-(DRAG_FACTOR * cruise10.velocity.length))).y - GRAVITY } :=
  ((C8_drag_guard cruise10).2 (by
    show (0.01 : ℝ) < Vec3.length ⟨10, 0, 0⟩
    rw [Vec3.length_xAxis 10 (by norm_num)]
    norm_num)).2

/-! ### Claim C4 -/

/-- C4 (confirmed): for every state — in particular every reachable one —
and every tick with `dt ∈ [0, 0.05]`, the velocity after integration obeys
`|v| ≤ MAX_SPEED`; when the pre-cap velocity exceeds `MAX_SPEED` it is
rescaled to length exactly `MAX_SPEED` by a positive scalar (direction
preserved), and the bound still holds for the velocity at the end of the
tick. -/
theorem C4_speed_ceiling (s : FlightState) (k : Keys) (dtRaw : ℝ)
    (h0 : 0 ≤ dtRaw) (h5 : dtRaw ≤ 0.05) :
    (postCapVel (controlPhase s k (min dtRaw 0.05)) (min dtRaw 0.05)).length ≤ MAX_SPEED ∧
    (MAX_SPEED < (preCapVel (controlPhase s k (min dtRaw 0.05)) (min dtRaw 0.05)).length →
      (postCapVel (controlPhase s k (min dtRaw 0.05)) (min dtRaw 0.05)).length = MAX_SPEED ∧
      ∃ c : ℝ, 0 < c ∧
        postCapVel (controlPhase s k (min dtRaw 0.05)) (min dtRaw 0.05) =
          Vec3.scale c (preCapVel (controlPhase s k (min dtRaw 0.05)) (min dtRaw 0.05))) ∧
    (update s k dtRaw).velocity.length ≤ MAX_SPEED := by
  obtain ⟨hle, hcap⟩ := postCapVel_spec (controlPhase s k (min dtRaw 0.05)) (min dtRaw 0.05)
  refine ⟨hle, hcap, ?_⟩
  rw [update_velocity]
  exact groundPhase_vel_le _ _ _ (le_min h0 (by norm_num)) hle

/-- Witness for C4 at a state moving at 200 m/s: the pre-cap speed exceeds
the ceiling, the cap fires, and the capped speed is exactly `MAX_SPEED`. -/
theorem C4_speed_ceiling_witness :
    MAX_SPEED < (preCapVel (controlPhase fast200 noKeys (min 0 0.05)) (min 0 0.05)).length ∧
    (postCapVel (controlPhase fast200 noKeys (min 0 0.05)) (min 0 0.05)).length = MAX_SPEED ∧
    (update fast200 noKeys 0).velocity.length ≤ MAX_SPEED := by
  have h1 : controlPhase fast200 noKeys (min (0 : ℝ) 0.05) = fast200 :=
    controlPhase_noKeys fast200 _ rfl rfl
  have hpre : preCapVel (controlPhase fast200 noKeys (min (0 : ℝ) 0.05)) (min (0 : ℝ) 0.05)
      = fast200.velocity := by
    rw [h1, preCapVel, show min (0 : ℝ) 0.05 = 0 from min_eq_left (by norm_num),
      Vec3.addScaled_zero]
  have hgt : MAX_SPEED
      < (preCapVel (controlPhase fast200 noKeys (min (0 : ℝ) 0.05)) (min (0 : ℝ) 0.05)).length := by
    rw [hpre]
    show MAX_SPEED < Vec3.length ⟨200, 0, 0⟩
    rw [Vec3.length_xAxis 200 (by norm_num), MAX_SPEED]
    norm_num
  exact ⟨hgt, ((C4_speed_ceiling fast200 noKeys 0 le_rfl (by norm_num)).2.1 hgt).1,
    (C4_speed_ceiling fast200 noKeys 0 le_rfl (by norm_num)).2.2⟩

/-! ### Claim C5 -/

/-- C5 (confirmed): along every sequence of ticks from the initial state with
any inputs and `dt ∈ [0, 0.05]` per tick, the pitch stays within
`[-MAX_PITCH, MAX_PITCH]` and the roll within `[-MAX_ROLL, MAX_ROLL]` after
every tick. -/
theorem C5_angle_clamp (ks : ℕ → Keys) (dts : ℕ → ℝ)
    (hdts : ∀ i, 0 ≤ dts i ∧ dts i ≤ 0.05) (n : ℕ) (hn : 1 ≤ n) :
    |(trace ks dts n).pitch| ≤ MAX_PITCH ∧ |(trace ks dts n).roll| ≤ MAX_ROLL := by
  obtain ⟨m, rfl⟩ : ∃ m, n = m + 1 := ⟨n - 1, by omega⟩
  rw [trace]
  exact update_pitch_roll_bound _ _ _ (hdts m).1

/-- Witness for C5 after one idle tick. -/
theorem C5_angle_clamp_witness :
    |(trace (fun _ => noKeys) (fun _ => 0) 1).pitch| ≤ MAX_PITCH ∧
      |(trace (fun _ => noKeys) (fun _ => 0) 1).roll| ≤ MAX_ROLL :=
  C5_angle_clamp (fun _ => noKeys) (fun _ => 0) (fun _ => ⟨le_rfl, by norm_num⟩) 1 le_rfl

end
